import Mathlib

/-!
Shallow embedding of the SystemC cache/memory simulator.

The `Cache` module (2-level direct-mapped write-through cache) and the
`Memory` module (paged byte store) are translated into pure Lean functions.
Machine integers (`uint32_t`, `uint8_t`) are modelled as `Nat`; every byte
stored is masked with `&&& 255`, so stored bytes are below 256, and inputs
are constrained by hypotheses where a bound matters.  An out-of-bounds
`std::vector` access is undefined behaviour in C++; it is totalised here:
`List.set` out of range is a no-op and `List.getD` out of range yields the
default 0.
-/

namespace CacheSim

/-- `struct CacheLine { bool valid; uint32_t tag; std::vector<uint8_t> data; }`. -/
structure CacheLine where
  valid : Bool
  tag : Nat
  data : List Nat
  deriving DecidableEq

instance : Inhabited CacheLine := ⟨⟨false, 0, []⟩⟩

/-- `std::vector<std::vector<CacheLine>> caches` — one line array per level. -/
abbrev CacheState := List (List CacheLine)

/-- Constructor initialiser `cache_sizes{1024, 2048}`. -/
def cache_sizes : List Nat := [1024, 2048]

/-- Constructor initialiser `line_sizes{64, 64}`. -/
def line_sizes : List Nat := [64, 64]

/-- Constructor initialiser `latencies{1, 3}`. -/
def latencies : List Nat := [1, 3]

/-- `uint8_t levels = 2`. -/
def levels : Nat := 2

/-- `uint32_t num_lines = cache_sizes[i] / line_sizes[i]` in the constructor. -/
def num_lines (i : Nat) : Nat := cache_sizes.getD i 0 / line_sizes.getD i 0

/-- The constructor body: each level resized to `num_lines` copies of
`{false, 0, std::vector<uint8_t>(line_sizes[i], 0)}`. -/
def init_caches : CacheState :=
  (List.range levels).map fun i =>
    List.replicate (num_lines i) ⟨false, 0, List.replicate (line_sizes.getD i 0) 0⟩

/-- `caches[level][index]` for the decomposed `index = (addr / line_sizes[level]) %
caches[level].size()` used by both `search_cache` and `update_cache`. -/
def line_at (caches : CacheState) (level addr : Nat) : CacheLine :=
  (caches.getD level []).getD
    ((addr / line_sizes.getD level 0) % (caches.getD level []).length) default

/-- The reconstruction loop of `Cache::search_cache`:
`for (i = 0; i < 4; i++) data = (data << 8) | line.data[offset + i]`. -/
def read_line_word (data : List Nat) (offset : Nat) : Nat :=
  ((((((0 <<< 8) ||| data.getD offset 0) <<< 8) ||| data.getD (offset + 1) 0) <<< 8) |||
      data.getD (offset + 2) 0) <<< 8 ||| data.getD (offset + 3) 0

/-- `Cache::search_cache(level, addr, data)`: hit iff `line.valid && line.tag == tag`
with `tag = addr / line_sizes[level]`; on hit the out-parameter carries the
reconstructed word, modelled as `some word`; a miss is `none`. -/
def search_cache (caches : CacheState) (level addr : Nat) : Option Nat :=
  if (line_at caches level addr).valid &&
      ((line_at caches level addr).tag == addr / line_sizes.getD level 0) then
    some (read_line_word (line_at caches level addr).data (addr % line_sizes.getD level 0))
  else
    none

/-- The store loop of `Cache::update_cache`:
`for (i = 3; i >= 0; i--) { line.data[offset + i] = data & 0xFF; data >>= 8; }`. -/
def write_line_bytes (data : List Nat) (offset d : Nat) : List Nat :=
  (((data.set (offset + 3) (d &&& 255)).set (offset + 2) ((d >>> 8) &&& 255)).set
      (offset + 1) ((d >>> 16) &&& 255)).set offset ((d >>> 24) &&& 255)

/-- `Cache::update_cache(level, addr, data)`: unconditionally installs
`{valid = true, tag, bytes of data at offset}` into `caches[level][index]`. -/
def update_cache (caches : CacheState) (level addr d : Nat) : CacheState :=
  caches.set level ((caches.getD level []).set
    ((addr / line_sizes.getD level 0) % (caches.getD level []).length)
    ⟨true, addr / line_sizes.getD level 0,
      write_line_bytes (line_at caches level addr).data (addr % line_sizes.getD level 0) d⟩)

/-- The cascading level loop of the read branch of `Cache::process_cache`,
with the `break` on the first hit: tries `search_cache` at levels
`first, first + 1, ...` while below `levels`; returns the hitting level and
its word.  `fuel` makes the recursion structural; it is started at `levels`. -/
def find_hit_from (caches : CacheState) (addr : Nat) : Nat → Nat → Option (Nat × Nat)
  | 0, _ => none
  | fuel + 1, first =>
    if first < levels then
      match search_cache caches first addr with
      | some d => some (first, d)
      | none => find_hit_from caches addr fuel (first + 1)
    else none

/-- `for (level = 0; level < levels; level++) if (search_cache(...)) break`. -/
def find_hit (caches : CacheState) (addr : Nat) : Option (Nat × Nat) :=
  find_hit_from caches addr levels 0

/-- The fill / write-through loop:
`for (level = 0; level < levels; level++) update_cache(level, addr, data)`. -/
def update_all (caches : CacheState) (addr d : Nat) : CacheState :=
  (List.range levels).foldl (fun c level => update_cache c level addr d) caches

/-- The four input ports sampled by one iteration of `Cache::process_cache`. -/
structure Request where
  read : Bool
  write : Bool
  address : Nat
  w_data : Nat
  deriving DecidableEq

/-- What one iteration of `Cache::process_cache` emits: the value driven on
`r_data` (if any), the level that hit (`none` on a full miss or a write),
the cycles spent in `wait(latencies[level], SC_NS)` (only the hit path
waits), and the final value of `ready`. -/
structure Response where
  r_data : Option Nat
  hit_level : Option Nat
  waited : Nat
  ready : Bool
  deriving DecidableEq

/-- One iteration of the while loop of `Cache::process_cache`: read branch
first (so read wins when both ports are asserted), placeholder
`data = 0xDEADBEEF` installed into every level on a full miss, write-through
`update_cache` on every level in the write branch, and no action when
neither port is asserted (`ready` stays false). -/
def process_cache (caches : CacheState) (req : Request) : CacheState × Response :=
  if req.read then
    match find_hit caches req.address with
    | some (level, d) => (caches, ⟨some d, some level, latencies.getD level 0, true⟩)
    | none =>
      (update_all caches req.address 0xDEADBEEF, ⟨some 0xDEADBEEF, none, 0, true⟩)
  else if req.write then
    (update_all caches req.address req.w_data, ⟨none, none, 0, true⟩)
  else
    (caches, ⟨none, none, 0, false⟩)

/-- `int page_size = 4 * 1024` in the `Memory` module. -/
def page_size : Nat := 4 * 1024

/-- `int page_num = 1024 * 1024` in the `Memory` module. -/
def page_num : Nat := 1024 * 1024

/-- `memory.resize(page_num, std::vector<uint8_t>(page_size, 0))` in the
`Memory` constructor. -/
def init_memory : List (List Nat) := List.replicate page_num (List.replicate page_size 0)

/-- The read branch of `Memory::process_memory`:
`for (i = 3; i >= 0; i--) data = (data << 8) | memory[page][position + i]`
with `page = addr / page_size`, `position = addr % page_size`. -/
def mem_read_word (memory : List (List Nat)) (addr : Nat) : Nat :=
  ((((((0 <<< 8) ||| (memory.getD (addr / page_size) []).getD (addr % page_size + 3) 0) <<< 8) |||
        (memory.getD (addr / page_size) []).getD (addr % page_size + 2) 0) <<< 8) |||
      (memory.getD (addr / page_size) []).getD (addr % page_size + 1) 0) <<< 8 |||
    (memory.getD (addr / page_size) []).getD (addr % page_size) 0

/-- Structural invariant fixed by the `Cache` constructor: two levels, level
`l` holds `cache_sizes[l] / line_sizes[l]` lines, and every line carries a
byte vector of length `line_sizes[l]`. -/
def Wf (caches : CacheState) : Prop :=
  caches.length = levels ∧
  ∀ l, l < levels →
    (caches.getD l []).length = num_lines l ∧
    ∀ i, i < num_lines l →
      ((caches.getD l []).getD i default).data.length = line_sizes.getD l 0

instance (caches : CacheState) : Decidable (Wf caches) := by
  unfold Wf; infer_instance

/-! ### List and word helper lemmas -/

theorem getD_set_self {α : Type} (l : List α) (i : Nat) (a d : α) (h : i < l.length) :
    (l.set i a).getD i d = a := by
  simp [List.getD_eq_getElem?_getD, List.getElem?_set_self h]

theorem getD_set_ne {α : Type} (l : List α) (i j : Nat) (a : α) (d : α) (h : i ≠ j) :
    (l.set i a).getD j d = l.getD j d := by
  simp [List.getD_eq_getElem?_getD, List.getElem?_set_ne h]

theorem shl8_or_eq (a b : Nat) (hb : b < 256) : (a <<< 8) ||| b = 256 * a + b := by
  have h2 : (256 : Nat) = 2 ^ 8 := by norm_num
  rw [h2] at hb ⊢
  rw [Nat.shiftLeft_eq, Nat.mul_comm a (2 ^ 8)]
  exact (Nat.mul_add_lt_is_or hb a).symm

theorem and255_eq_mod (x : Nat) : x &&& 255 = x % 256 := by
  have h : (255 : Nat) = 2 ^ 8 - 1 := by norm_num
  rw [h, Nat.and_pow_two_sub_one_eq_mod]

/-- Reassembling the four bytes stored by `update_cache` yields the stored
word back: the byte split is the exact inverse of the reconstruction. -/
theorem word_recombine (v : Nat) (hv : v < 2 ^ 32) :
    ((((((0 <<< 8) ||| ((v >>> 24) &&& 255)) <<< 8) ||| ((v >>> 16) &&& 255)) <<< 8) |||
        ((v >>> 8) &&& 255)) <<< 8 ||| (v &&& 255) = v := by
  simp only [and255_eq_mod, Nat.shiftRight_eq_div_pow]
  rw [shl8_or_eq _ _ (Nat.mod_lt _ (by norm_num)), shl8_or_eq _ _ (Nat.mod_lt _ (by norm_num)),
    shl8_or_eq _ _ (Nat.mod_lt _ (by norm_num)), shl8_or_eq _ _ (Nat.mod_lt _ (by norm_num))]
  omega

theorem length_write_line_bytes (data : List Nat) (offset d : Nat) :
    (write_line_bytes data offset d).length = data.length := by
  simp [write_line_bytes]

/-- Reading a 4-byte word back from the byte vector written by
`write_line_bytes` returns the written word, provided the access stays
inside the 64-byte line. -/
theorem read_write_line_bytes (data : List Nat) (offset v : Nat)
    (hlen : data.length = 64) (hoff : offset + 4 ≤ 64) (hv : v < 2 ^ 32) :
    read_line_word (write_line_bytes data offset v) offset = v := by
  have g0 : (write_line_bytes data offset v).getD offset 0 = (v >>> 24) &&& 255 := by
    unfold write_line_bytes
    exact getD_set_self _ _ _ _ (by simp [hlen]; omega)
  have g1 : (write_line_bytes data offset v).getD (offset + 1) 0 = (v >>> 16) &&& 255 := by
    unfold write_line_bytes
    rw [getD_set_ne _ _ _ _ _ (by omega)]
    exact getD_set_self _ _ _ _ (by simp [hlen]; omega)
  have g2 : (write_line_bytes data offset v).getD (offset + 2) 0 = (v >>> 8) &&& 255 := by
    unfold write_line_bytes
    rw [getD_set_ne _ _ _ _ _ (by omega), getD_set_ne _ _ _ _ _ (by omega)]
    exact getD_set_self _ _ _ _ (by simp [hlen]; omega)
  have g3 : (write_line_bytes data offset v).getD (offset + 3) 0 = v &&& 255 := by
    unfold write_line_bytes
    rw [getD_set_ne _ _ _ _ _ (by omega), getD_set_ne _ _ _ _ _ (by omega),
      getD_set_ne _ _ _ _ _ (by omega)]
    exact getD_set_self _ _ _ _ (by simp [hlen]; omega)
  unfold read_line_word
  rw [g0, g1, g2, g3]
  exact word_recombine v hv

/-! ### Geometry facts for the two configured levels -/

theorem num_lines_pos (level : Nat) (h : level < levels) : 0 < num_lines level := by
  have h2 : level < 2 := h
  interval_cases level <;> decide

theorem line_size_eq (level : Nat) (h : level < levels) : line_sizes.getD level 0 = 64 := by
  have h2 : level < 2 := h
  interval_cases level <;> rfl

/-! ### Behaviour of `search_cache` after `update_cache` -/

/-- After `update_cache` at a level, `search_cache` at that level and the
same address hits the freshly installed line unconditionally. -/
theorem search_after_update (caches : CacheState) (level addr v : Nat)
    (hlevel : level < caches.length) (hn : 0 < (caches.getD level []).length) :
    search_cache (update_cache caches level addr v) level addr =
      some (read_line_word
        (write_line_bytes (line_at caches level addr).data (addr % line_sizes.getD level 0) v)
        (addr % line_sizes.getD level 0)) := by
  have hidx : (addr / line_sizes.getD level 0) % (caches.getD level []).length <
      (caches.getD level []).length := Nat.mod_lt _ hn
  have hline : line_at (update_cache caches level addr v) level addr =
      ⟨true, addr / line_sizes.getD level 0,
        write_line_bytes (line_at caches level addr).data (addr % line_sizes.getD level 0) v⟩ := by
    unfold line_at update_cache
    rw [getD_set_self _ _ _ _ hlevel, List.length_set]
    exact getD_set_self _ _ _ _ hidx
  unfold search_cache
  rw [hline]
  simp

/-- `update_cache` at one level leaves `search_cache` at any other level
unchanged, for any address. -/
theorem search_update_other (caches : CacheState) (level level2 addr addr2 v : Nat)
    (hne : level2 ≠ level) :
    search_cache (update_cache caches level addr v) level2 addr2 =
      search_cache caches level2 addr2 := by
  unfold search_cache line_at update_cache
  rw [getD_set_ne _ _ _ _ _ (Ne.symm hne)]

/-- Full install/lookup round trip at one level: after `update_cache` with a
word below `2 ^ 32` at an address whose 4-byte access stays inside the line,
`search_cache` returns exactly that word. -/
theorem search_update_same (caches : CacheState) (level addr v : Nat)
    (hWf : Wf caches) (hlevel : level < levels)
    (hal : addr % 64 + 4 ≤ 64) (hv : v < 2 ^ 32) :
    search_cache (update_cache caches level addr v) level addr = some v := by
  obtain ⟨hlen, hlv⟩ := hWf
  obtain ⟨hlvlen, hdata⟩ := hlv level hlevel
  have hlevel2 : level < caches.length := by rw [hlen]; exact hlevel
  have hn : 0 < (caches.getD level []).length := by
    rw [hlvlen]; exact num_lines_pos level hlevel
  rw [search_after_update caches level addr v hlevel2 hn]
  congr 1
  apply read_write_line_bytes
  · have hidx : (addr / line_sizes.getD level 0) % (caches.getD level []).length <
        num_lines level := by rw [← hlvlen]; exact Nat.mod_lt _ hn
    have hd := hdata _ hidx
    unfold line_at
    rw [hd, line_size_eq level hlevel]
  · rw [line_size_eq level hlevel]; omega
  · exact hv

/-! ### Preservation of the structural invariant -/

theorem wf_init : Wf init_caches := by decide

/-- `update_cache` preserves the structural invariant. -/
theorem wf_update (caches : CacheState) (level addr v : Nat)
    (hWf : Wf caches) (hlevel : level < levels) :
    Wf (update_cache caches level addr v) := by
  obtain ⟨hlen, hlv⟩ := hWf
  have hlevel2 : level < caches.length := by rw [hlen]; exact hlevel
  constructor
  · unfold update_cache; rw [List.length_set]; exact hlen
  · intro l hl
    by_cases heq : l = level
    · subst heq
      obtain ⟨hlvlen, hdata⟩ := hlv l hl
      have hn : 0 < (caches.getD l []).length := by
        rw [hlvlen]; exact num_lines_pos l hl
      have hidx : (addr / line_sizes.getD l 0) % (caches.getD l []).length <
          (caches.getD l []).length := Nat.mod_lt _ hn
      unfold update_cache
      rw [getD_set_self _ _ _ _ hlevel2]
      constructor
      · rw [List.length_set]; exact hlvlen
      · intro i hi
        by_cases hieq : i = (addr / line_sizes.getD l 0) % (caches.getD l []).length
        · rw [hieq, getD_set_self _ _ _ _ hidx]
          show (write_line_bytes (line_at caches l addr).data
              (addr % line_sizes.getD l 0) v).length = line_sizes.getD l 0
          rw [length_write_line_bytes]
          have hidx2 : (addr / line_sizes.getD l 0) % (caches.getD l []).length <
              num_lines l := by rw [← hlvlen]; exact hidx
          exact hdata _ hidx2
        · rw [getD_set_ne _ _ _ _ _ (fun h => hieq h.symm)]
          exact hdata i hi
    · unfold update_cache
      rw [getD_set_ne _ _ _ _ _ (fun h => heq h.symm)]
      exact hlv l hl

/-! ### The level cascade and the fill loop -/

/-- The fill / write-through loop on the two configured levels. -/
theorem update_all_eq (caches : CacheState) (addr d : Nat) :
    update_all caches addr d = update_cache (update_cache caches 0 addr d) 1 addr d := rfl

theorem wf_update_all (caches : CacheState) (addr d : Nat) (hWf : Wf caches) :
    Wf (update_all caches addr d) := by
  rw [update_all_eq]
  exact wf_update _ 1 addr d (wf_update _ 0 addr d hWf (by decide)) (by decide)

theorem find_hit_none (caches : CacheState) (addr : Nat)
    (h0 : search_cache caches 0 addr = none) (h1 : search_cache caches 1 addr = none) :
    find_hit caches addr = none := by
  simp [find_hit, find_hit_from, levels, h0, h1]

theorem find_hit_zero (caches : CacheState) (addr d : Nat)
    (h0 : search_cache caches 0 addr = some d) :
    find_hit caches addr = some (0, d) := by
  simp [find_hit, find_hit_from, levels, h0]

theorem find_hit_one (caches : CacheState) (addr d : Nat)
    (h0 : search_cache caches 0 addr = none) (h1 : search_cache caches 1 addr = some d) :
    find_hit caches addr = some (1, d) := by
  simp [find_hit, find_hit_from, levels, h0, h1]

theorem getD_replicate {α : Type} (n i : Nat) (x d : α) (h : i < n) :
    (List.replicate n x).getD i d = x := by
  simp [List.getD_eq_getElem?_getD, List.getElem?_replicate_of_lt h]

/-- A level whose selected line has a cleared valid bit always misses. -/
theorem search_cache_invalid (caches : CacheState) (level a : Nat)
    (hv : (line_at caches level a).valid = false) :
    search_cache caches level a = none := by
  unfold search_cache
  rw [hv]
  simp

/-- On the freshly constructed hierarchy every selected line is the blank
invalid line, at both levels and for every address. -/
theorem line_at_init (level a : Nat) (h : level < levels) :
    line_at init_caches level a = ⟨false, 0, List.replicate 64 0⟩ := by
  have h2 : level < 2 := h
  interval_cases level
  · show (List.replicate 16 (⟨false, 0, List.replicate 64 0⟩ : CacheLine)).getD
        ((a / 64) % 16) default = _
    exact getD_replicate _ _ _ _ (Nat.mod_lt _ (by norm_num))
  · show (List.replicate 32 (⟨false, 0, List.replicate 64 0⟩ : CacheLine)).getD
        ((a / 64) % 32) default = _
    exact getD_replicate _ _ _ _ (Nat.mod_lt _ (by norm_num))

/-- The level list produced by `update_cache` at the updated level. -/
theorem getD_update_cache (caches : CacheState) (level addr d : Nat)
    (hlevel : level < caches.length) :
    (update_cache caches level addr d).getD level [] =
      (caches.getD level []).set
        ((addr / line_sizes.getD level 0) % (caches.getD level []).length)
        ⟨true, addr / line_sizes.getD level 0,
          write_line_bytes (line_at caches level addr).data
            (addr % line_sizes.getD level 0) d⟩ := by
  unfold update_cache
  exact getD_set_self _ _ _ _ hlevel

/-! ### Claim theorems -/

/-- Claim C5 (confirmed): from any well-formed cache state, for every address
`a` and 32-bit value `v` whose 4-byte access does not cross a line boundary,
`write(a, v)` followed immediately by `read(a)` returns `v`, and the read
resolves as a hit at level 0 with `latency_cycles = latencies[0]`. -/
theorem round_trip_write_read (caches : CacheState) (a v : Nat)
    (hWf : Wf caches) (hal : a % 64 + 4 ≤ 64) (hv : v < 2 ^ 32) :
    (process_cache (process_cache caches ⟨false, true, a, v⟩).1 ⟨true, false, a, 0⟩).2 =
      ⟨some v, some 0, latencies.getD 0 0, true⟩ := by
  have hs1 : (process_cache caches ⟨false, true, a, v⟩).1 = update_all caches a v := rfl
  rw [hs1, update_all_eq]
  have h0 : search_cache (update_cache (update_cache caches 0 a v) 1 a v) 0 a = some v := by
    rw [search_update_other _ _ _ _ _ _ (by decide)]
    exact search_update_same caches 0 a v hWf (by decide) hal hv
  have hf := find_hit_zero _ _ _ h0
  simp [process_cache, hf]

/-- Witness for C5 at the concrete scenario of the spec: `write(0x0,
0x12345678)` then `read(0x0)` returns `0x12345678` with latency 1. -/
theorem round_trip_write_read_witness :
    Wf init_caches ∧ (0 : Nat) % 64 + 4 ≤ 64 ∧ (0x12345678 : Nat) < 2 ^ 32 ∧
      (process_cache (process_cache init_caches ⟨false, true, 0, 0x12345678⟩).1
          ⟨true, false, 0, 0⟩).2 = ⟨some 0x12345678, some 0, 1, true⟩ :=
  ⟨by decide, by decide, by decide,
    round_trip_write_read init_caches 0 0x12345678 (by decide) (by decide) (by decide)⟩

/-- Claim C7 (confirmed): a read that first hits at level `L` returns the
word reconstructed from that level, reports `latency_cycles = latencies[L]`,
and the whole cache state — every level — is returned unchanged. -/
theorem read_hit_frame (caches : CacheState) (a d L : Nat)
    (hL : L < levels)
    (hmiss : ∀ l, l < L → search_cache caches l a = none)
    (hhit : search_cache caches L a = some d) :
    process_cache caches ⟨true, false, a, 0⟩ =
      (caches, ⟨some d, some L, latencies.getD L 0, true⟩) := by
  have h2 : L < 2 := hL
  interval_cases L
  · have hf := find_hit_zero caches a d hhit
    simp [process_cache, hf]
  · have hf := find_hit_one caches a d (hmiss 0 (by omega)) hhit
    simp [process_cache, hf]

/-- Witness for C7: after writing `0x12345678` at address 0, a read of
address 0 hits at level 0, returns the word, waits 1 cycle, and leaves the
state untouched. -/
theorem read_hit_frame_witness :
    (0 : Nat) < levels ∧
      search_cache (process_cache init_caches ⟨false, true, 0, 0x12345678⟩).1 0 0 =
        some 0x12345678 ∧
      process_cache (process_cache init_caches ⟨false, true, 0, 0x12345678⟩).1
          ⟨true, false, 0, 0⟩ =
        ((process_cache init_caches ⟨false, true, 0, 0x12345678⟩).1,
          ⟨some 0x12345678, some 0, 1, true⟩) :=
  ⟨by decide, by decide,
    read_hit_frame _ 0 0x12345678 0 (by decide) (fun l hl => absurd hl (by omega)) (by decide)⟩

/-- Claim C8 (confirmed): on the freshly constructed hierarchy, `read(a)`
misses at level 0 and at level 1 (so the cascade consults every level and
reports a full miss), and a second `read(a)` issued afterwards hits at
level 0. -/
theorem cold_miss_then_hit (a : Nat) :
    search_cache init_caches 0 a = none ∧
    search_cache init_caches 1 a = none ∧
    (process_cache init_caches ⟨true, false, a, 0⟩).2.hit_level = none ∧
    (process_cache (process_cache init_caches ⟨true, false, a, 0⟩).1
        ⟨true, false, a, 0⟩).2.hit_level = some 0 := by
  have h0 : search_cache init_caches 0 a = none :=
    search_cache_invalid _ _ _ (by rw [line_at_init 0 a (by decide)])
  have h1 : search_cache init_caches 1 a = none :=
    search_cache_invalid _ _ _ (by rw [line_at_init 1 a (by decide)])
  have hf := find_hit_none _ _ h0 h1
  have hstep : process_cache init_caches ⟨true, false, a, 0⟩ =
      (update_all init_caches a 0xDEADBEEF, ⟨some 0xDEADBEEF, none, 0, true⟩) := by
    simp [process_cache, hf]
  refine ⟨h0, h1, by rw [hstep], ?_⟩
  rw [hstep]
  show (process_cache (update_all init_caches a 0xDEADBEEF) ⟨true, false, a, 0⟩).2.hit_level =
    some 0
  rw [update_all_eq]
  obtain ⟨w, hw⟩ : ∃ w, search_cache
      (update_cache (update_cache init_caches 0 a 0xDEADBEEF) 1 a 0xDEADBEEF) 0 a = some w := by
    rw [search_update_other _ _ _ _ _ _ (by decide)]
    exact ⟨_, search_after_update init_caches 0 a 0xDEADBEEF (by decide) (by decide)⟩
  have hf2 := find_hit_zero _ _ _ hw
  simp [process_cache, hf2]

/-- Claim C9 (confirmed): for two addresses with the same index but
different tags at a level, installing the second after the first makes a
subsequent lookup of the first address miss at that level. -/
theorem conflict_overwrite (caches : CacheState) (level a1 a2 v w : Nat)
    (hWf : Wf caches) (hlevel : level < levels)
    (hidx : (a1 / line_sizes.getD level 0) % num_lines level =
      (a2 / line_sizes.getD level 0) % num_lines level)
    (htag : a1 / line_sizes.getD level 0 ≠ a2 / line_sizes.getD level 0) :
    search_cache (update_cache (update_cache caches level a1 w) level a2 v) level a1 =
      none := by
  have hWf1 : Wf (update_cache caches level a1 w) := wf_update _ _ _ _ hWf hlevel
  obtain ⟨hlen1, hlv1⟩ := hWf1
  obtain ⟨hlvlen1, -⟩ := hlv1 level hlevel
  have hlevel2 : level < (update_cache caches level a1 w).length := by
    rw [hlen1]; exact hlevel
  have hLa1 : line_at (update_cache (update_cache caches level a1 w) level a2 v) level a1 =
      ⟨true, a2 / line_sizes.getD level 0,
        write_line_bytes (line_at (update_cache caches level a1 w) level a2).data
          (a2 % line_sizes.getD level 0) v⟩ := by
    conv_lhs => unfold line_at
    rw [getD_update_cache _ _ _ _ hlevel2, List.length_set, hlvlen1, hidx]
    apply getD_set_self
    rw [hlvlen1]
    exact Nat.mod_lt _ (num_lines_pos level hlevel)
  have hbeq : ((a2 / line_sizes.getD level 0) == (a1 / line_sizes.getD level 0)) = false :=
    beq_false_of_ne (Ne.symm htag)
  unfold search_cache
  rw [hLa1]
  dsimp only
  rw [hbeq]
  rfl

/-- Witness for C9: addresses 0 and 1024 share index 0 at level 0 but have
tags 0 and 16; after installing both, a lookup of address 0 misses. -/
theorem conflict_overwrite_witness :
    Wf init_caches ∧ (0 : Nat) < levels ∧
      (0 / line_sizes.getD 0 0) % num_lines 0 = (1024 / line_sizes.getD 0 0) % num_lines 0 ∧
      (0 : Nat) / line_sizes.getD 0 0 ≠ 1024 / line_sizes.getD 0 0 ∧
      search_cache (update_cache (update_cache init_caches 0 0 5) 0 1024 7) 0 0 = none :=
  ⟨by decide, by decide, by decide, by decide,
    conflict_overwrite init_caches 0 0 1024 7 5 (by decide) (by decide) (by decide) (by decide)⟩

/-- Claim C10 (confirmed): the constructor establishes the structural
invariant (per-level line count `cache_sizes[l] / line_sizes[l]`, per-line
byte-vector length `line_sizes[l]`), `update_cache` preserves it at every
level, and one full `process_cache` step — read hit, miss fill, write
through, or idle — preserves it as well (`search_cache` mutates nothing). -/
theorem operations_preserve_wf (caches : CacheState) (req : Request) (level addr d : Nat)
    (hWf : Wf caches) (hlevel : level < levels) :
    Wf init_caches ∧ Wf (update_cache caches level addr d) ∧
      Wf (process_cache caches req).1 := by
  refine ⟨wf_init, wf_update _ _ _ _ hWf hlevel, ?_⟩
  cases hr : req.read
  · cases hw : req.write
    · simpa [process_cache, hr, hw] using hWf
    · simpa [process_cache, hr, hw] using wf_update_all _ req.address req.w_data hWf
  · cases hfind : find_hit caches req.address with
    | none => simpa [process_cache, hr, hfind] using wf_update_all _ req.address 0xDEADBEEF hWf
    | some p => simpa [process_cache, hr, hfind] using hWf

/-- Witness for C10 on a concrete read request and a concrete install. -/
theorem operations_preserve_wf_witness :
    Wf init_caches ∧ (0 : Nat) < levels ∧
      (Wf init_caches ∧ Wf (update_cache init_caches 0 0 5) ∧
        Wf (process_cache init_caches ⟨true, false, 0, 0⟩).1) :=
  ⟨by decide, by decide,
    operations_preserve_wf init_caches ⟨true, false, 0, 0⟩ 0 0 5 (by decide) (by decide)⟩

/-- Claim C1 counterexample: a full-miss read of address `0x1000` on the
fresh hierarchy returns the hard-wired placeholder `0xDEADBEEF`, while the
word the `Memory` module holds at `0x1000` (its authoritative fresh
content) is 0 — the returned value is not the word a read issued to the
store would produce, so the claim fails at this input. -/
theorem miss_value_not_from_store :
    (process_cache init_caches ⟨true, false, 0x1000, 0⟩).2.r_data = some 0xDEADBEEF ∧
    mem_read_word init_memory 0x1000 = 0 ∧ (0xDEADBEEF : Nat) ≠ 0 := by
  refine ⟨by decide, ?_, by decide⟩
  have hpg : init_memory.getD (0x1000 / page_size) [] = List.replicate page_size 0 :=
    getD_replicate _ _ _ _ (by decide)
  have hb : ∀ i, i < page_size → (List.replicate page_size (0 : Nat)).getD i 0 = 0 :=
    fun i hi => getD_replicate _ _ _ _ hi
  unfold mem_read_word
  rw [hpg, hb _ (by decide), hb _ (by decide), hb _ (by decide), hb _ (by decide)]
  decide

/-- Claim C1 (amended): on a full miss the word returned is the fixed
placeholder `0xDEADBEEF` — no store is consulted — and that word is
installed into every level, so a lookup of the same address afterwards hits
at level 0 and at level 1 with that word. -/
theorem miss_returns_placeholder_and_fills (caches : CacheState) (a : Nat)
    (hWf : Wf caches)
    (h0 : search_cache caches 0 a = none) (h1 : search_cache caches 1 a = none)
    (hal : a % 64 + 4 ≤ 64) :
    (process_cache caches ⟨true, false, a, 0⟩).2.r_data = some 0xDEADBEEF ∧
    search_cache (process_cache caches ⟨true, false, a, 0⟩).1 0 a = some 0xDEADBEEF ∧
    search_cache (process_cache caches ⟨true, false, a, 0⟩).1 1 a = some 0xDEADBEEF := by
  have hf := find_hit_none _ _ h0 h1
  have hstep : process_cache caches ⟨true, false, a, 0⟩ =
      (update_all caches a 0xDEADBEEF, ⟨some 0xDEADBEEF, none, 0, true⟩) := by
    simp [process_cache, hf]
  rw [hstep]
  refine ⟨rfl, ?_, ?_⟩
  · rw [update_all_eq, search_update_other _ _ _ _ _ _ (by decide)]
    exact search_update_same caches 0 a _ hWf (by decide) hal (by norm_num)
  · rw [update_all_eq]
    exact search_update_same (update_cache caches 0 a 0xDEADBEEF) 1 a _
      (wf_update _ _ _ _ hWf (by decide)) (by decide) hal (by norm_num)

/-- Witness for the amended C1 at address `0x1000` on the fresh hierarchy. -/
theorem miss_returns_placeholder_and_fills_witness :
    Wf init_caches ∧ search_cache init_caches 0 0x1000 = none ∧
      search_cache init_caches 1 0x1000 = none ∧ (0x1000 : Nat) % 64 + 4 ≤ 64 ∧
      ((process_cache init_caches ⟨true, false, 0x1000, 0⟩).2.r_data = some 0xDEADBEEF ∧
        search_cache (process_cache init_caches ⟨true, false, 0x1000, 0⟩).1 0 0x1000 =
          some 0xDEADBEEF ∧
        search_cache (process_cache init_caches ⟨true, false, 0x1000, 0⟩).1 1 0x1000 =
          some 0xDEADBEEF) :=
  ⟨by decide, by decide, by decide, by decide,
    miss_returns_placeholder_and_fills init_caches 0x1000 (by decide) (by decide) (by decide)
      (by decide)⟩

/-- Claim C2 counterexample: with read and write both asserted at address 64
on the fresh hierarchy, the cache performs the read — `r_data` is driven
with the miss placeholder — and the miss fill mutates the level 0 line at
index 1, so state is mutated and no error is reported. -/
theorem simultaneous_performs_read :
    (process_cache init_caches ⟨true, true, 64, 0x11111111⟩).2.r_data = some 0xDEADBEEF ∧
    ((process_cache init_caches ⟨true, true, 64, 0x11111111⟩).1.getD 0 []).getD 1 default ≠
      (init_caches.getD 0 []).getD 1 default := by decide

/-- Claim C2 (amended): when read and write are asserted simultaneously the
read branch wins — the request is processed exactly as a pure read of the
same address (the write data is ignored), and no error of any kind is
reported. -/
theorem simultaneous_acts_as_read (caches : CacheState) (a v : Nat) :
    process_cache caches ⟨true, true, a, v⟩ = process_cache caches ⟨true, false, a, 0⟩ := rfl

/-- Claim C3: silent data loss because writes are not forwarded to any
store. `write(0, 0x12345678)`, then `write(2048, 0x55555555)` — address
2048 maps to the same index with a different tag at both levels, evicting
the first line everywhere — then `read(0)` is a full miss and returns the
placeholder: the written word `0x12345678` is unrecoverable. -/
theorem write_lost_after_conflict_eviction :
    (process_cache (process_cache (process_cache init_caches
          ⟨false, true, 0, 0x12345678⟩).1 ⟨false, true, 2048, 0x55555555⟩).1
        ⟨true, false, 0, 0⟩).2.r_data = some 0xDEADBEEF ∧
    (0xDEADBEEF : Nat) ≠ 0x12345678 := by decide

/-- Claim C4: there is no alignment guard. At address 61 the offset is 61
and `offset + 4 > 64`, yet the write proceeds and mutates the line (the
store to byte index 64 falls outside the 64-byte vector — undefined
behaviour in C++, a dropped write in this model), and the read-back
returns the corrupted word `0x12345600` instead of an error. -/
theorem unaligned_access_corrupts :
    (61 : Nat) % 64 + 4 > 64 ∧
    (process_cache (process_cache init_caches ⟨false, true, 61, 0x12345678⟩).1
        ⟨true, false, 61, 0⟩).2.r_data = some 0x12345600 ∧
    (process_cache init_caches ⟨false, true, 61, 0x12345678⟩).1 ≠ init_caches := by decide

/-- Claim C6 counterexample: the full-miss read of address 0 on the fresh
hierarchy reports zero waited cycles, while the sum of the level latencies
alone is already 4 — the reported latency is not the sum of all level
latencies plus a store cost. -/
theorem miss_latency_zero :
    (process_cache init_caches ⟨true, false, 0, 0⟩).2.hit_level = none ∧
    (process_cache init_caches ⟨true, false, 0, 0⟩).2.waited = 0 ∧
    latencies.sum = 1 + 3 := by decide

/-- Claim C6 (amended): every read that misses at both levels completes
with zero waited latency cycles — the per-level `wait` on the hit path is
skipped and no store access adds any cost. -/
theorem miss_waits_zero (caches : CacheState) (a : Nat)
    (h0 : search_cache caches 0 a = none) (h1 : search_cache caches 1 a = none) :
    (process_cache caches ⟨true, false, a, 0⟩).2.waited = 0 ∧
    (process_cache caches ⟨true, false, a, 0⟩).2.hit_level = none := by
  have hf := find_hit_none _ _ h0 h1
  simp [process_cache, hf]

/-- Witness for the amended C6 at address 77 on the fresh hierarchy. -/
theorem miss_waits_zero_witness :
    search_cache init_caches 0 77 = none ∧ search_cache init_caches 1 77 = none ∧
      ((process_cache init_caches ⟨true, false, 77, 0⟩).2.waited = 0 ∧
        (process_cache init_caches ⟨true, false, 77, 0⟩).2.hit_level = none) :=
  ⟨by decide, by decide, miss_waits_zero init_caches 77 (by decide) (by decide)⟩

end CacheSim
